import Mathlib

/-!
# Demo-Follow-Up-System: shallow embedding and verification

This file embeds the scheduling-and-execution core of the Demo-Follow-Up-System
repository (TypeScript/Next.js, Supabase-backed) into Lean 4 and proves / refutes
the frozen specification claims about it.

Conventions of the embedding:
* Instants are epoch milliseconds, modelled as `Int` (JavaScript `Date.getTime()`).
* The relational store is modelled as lists of rows; a Supabase
  `update ... eq ...` is a `List.map` guarded by the filter, an `upsert` with an
  `onConflict` key replaces the matching row in place or appends, a `select`
  is a `List.filter` (plus `List.take` for `limit`).  No `ORDER BY` clause in a
  query means the rows keep table (list) order.
* The message transport (`nodemailer`/Twilio) is an external collaborator; its
  outcome is passed in as an oracle value (`none` = the send throws,
  `some extId` = success with the given external id).  Template *content* is
  out of scope per spec §1; only template *availability* (the `null` check that
  drives control flow) is modelled, from the keys of the template tables.
* IANA timezones are modelled as a fixed UTC offset in milliseconds.
-/

/-- Booking lifecycle status (`DemoStatus` in `types/demo`). -/
inductive DemoStatus
  | PENDING
  | CONFIRMED
  | RESCHEDULED
  | CANCELLED
  | NO_SHOW
  | COMPLETED
  deriving DecidableEq, Repr

/-- Booking classification tag (`DemoType` in `types/demo`). -/
inductive DemoType
  | SAME_DAY
  | NEXT_DAY
  | FUTURE
  deriving DecidableEq, Repr

/-- Message kinds (`MessageType`), union of the kinds used across the
repository's sequence tables and template tables. -/
inductive MessageType
  | CONFIRM_INITIAL
  | CONFIRM_REMINDER
  | DAY_OF_REMINDER
  | JOIN_LINK
  | JOIN_URGENT
  | SOONER_OFFER
  | RECEIPT
  | EVENING_BEFORE
  | VALUE_BOMB
  | POST_NO_SHOW
  | SMS_CONFIRM
  | SMS_REMINDER
  | SMS_JOIN_LINK
  | SMS_URGENT
  | SMS_DAY_BEFORE
  deriving DecidableEq, Repr

/-- One row of the `demos` table (`Demo` in `types/demo`).  `timezone` is
modelled as a fixed UTC offset in milliseconds (`tz_offset`). -/
structure DemoRow where
  id : Nat
  email : String
  phone : Option String
  name : String
  scheduled_at : Int
  tz_offset : Int
  demo_type : DemoType
  status : DemoStatus
  confirmed_at : Option Int
  joined_at : Option Int
  deriving DecidableEq, Repr

/-- One row of the `scheduled_jobs` table (`ScheduledJob` in `types/demo`,
plus the `processing`/`processing_started_at` claim columns used by
`/api/cron`).  Note the schema has **no retry counter and no last-error
column**. -/
structure JobRow where
  id : Nat
  demo_id : Nat
  message_type : MessageType
  scheduled_for : Int
  executed : Bool
  executed_at : Option Int
  cancelled : Bool
  processing : Bool
  processing_started_at : Option Int
  deriving DecidableEq, Repr

/-- One row of the `messages` audit table. -/
structure MessageRow where
  id : Nat
  demo_id : Nat
  message_type : MessageType
  recipient : String
  external_id : Option Nat
  deriving DecidableEq, Repr

/-- Parsed reply intent (`ParsedIntent` in `reply.service.ts`). -/
inductive Intent
  | YES
  | RESCHEDULE
  | SOONER
  | ONE
  | TWO
  | UNKNOWN
  deriving DecidableEq, Repr

/-- One row of the `replies` audit table. -/
structure ReplyRow where
  id : Nat
  demo_id : Option Nat
  from_address : String
  body : String
  intent : Intent
  processed : Bool
  deriving DecidableEq, Repr

/-- The shared datastore: the four tables touched by the core. -/
structure DBState where
  demos : List DemoRow
  jobs : List JobRow
  messages : List MessageRow
  replies : List ReplyRow
  deriving DecidableEq, Repr

/-! ## Classification (`DemoService.classifyDemoType`) -/

/-- `date-fns` `differenceInHours(dateLeft, dateRight)`: the difference in
milliseconds divided by 3 600 000, rounded toward zero (the library's default
`roundingMethod: 'trunc'`). -/
def differenceInHours (dateLeft dateRight : Int) : Int :=
  Int.tdiv (dateLeft - dateRight) 3600000

/-- `DemoService.classifyDemoType`: bucket a booking by hours until its
scheduled instant (`now` made an explicit argument; the source reads the
ambient clock). -/
def classifyDemoType (scheduledAt now : Int) : DemoType :=
  let hoursUntilDemo := differenceInHours scheduledAt now
  if hoursUntilDemo ≤ 12 then .SAME_DAY
  else if hoursUntilDemo ≤ 36 then .NEXT_DAY
  else .FUTURE

example : classifyDemoType (12 * 3600000) 0 = .SAME_DAY := by decide
example : classifyDemoType 43236000 0 = .SAME_DAY := by decide
example : classifyDemoType (36 * 3600000) 0 = .NEXT_DAY := by decide
example : classifyDemoType 129636000 0 = .NEXT_DAY := by decide
example : classifyDemoType (37 * 3600000) 0 = .FUTURE := by decide

/-! ## Job-store primitives (`lib/db.ts`, `db.jobs`) -/

/-- Does a row match the `(demo_id, message_type)` conflict key? -/
def jobKeyMatches (demoId : Nat) (mt : MessageType) (r : JobRow) : Bool :=
  r.demo_id = demoId && r.message_type = mt

/-- Is a row with the given conflict key present? -/
def jobKeyPresent (jobs : List JobRow) (demoId : Nat) (mt : MessageType) : Bool :=
  jobs.any (jobKeyMatches demoId mt)

/-- All rows carrying the given conflict key. -/
def rowsForKey (jobs : List JobRow) (demoId : Nat) (mt : MessageType) : List JobRow :=
  jobs.filter (jobKeyMatches demoId mt)

/-- A fresh primary key for an inserted row (the store generates ids; any
deterministic fresh choice is faithful). -/
def freshJobId (jobs : List JobRow) : Nat :=
  jobs.foldl (fun m r => max m r.id) 0 + 1

/-- `db.jobs.upsert` (`lib/db.ts`): insert a `JobInsert` with
`ON CONFLICT (demo_id, message_type) DO UPDATE`.  On conflict the provided
columns (`scheduled_for`, `executed := false`, `cancelled := false`) overwrite
the existing row; columns absent from `JobInsert` (`executed_at`,
`processing`, `processing_started_at`) keep their stored values. -/
def jobsUpsert (jobs : List JobRow) (demoId : Nat) (mt : MessageType)
    (scheduledFor : Int) : List JobRow :=
  if jobKeyPresent jobs demoId mt then
    jobs.map (fun r =>
      if jobKeyMatches demoId mt r then
        { r with scheduled_for := scheduledFor, executed := false, cancelled := false }
      else r)
  else
    jobs ++ [{ id := freshJobId jobs, demo_id := demoId, message_type := mt,
               scheduled_for := scheduledFor, executed := false, executed_at := none,
               cancelled := false, processing := false, processing_started_at := none }]

/-- `db.jobs.cancel` (`lib/db.ts`): `update scheduled_jobs set cancelled = true
where demo_id = demoId and executed = false` with an optional
`message_type in messageTypes` filter (`cancelAll` passes `none`,
`cancelKinds` passes `some kinds`).  This is the row filter. -/
def cancelMatches (demoId : Nat) (messageTypes : Option (List MessageType))
    (r : JobRow) : Bool :=
  r.demo_id = demoId && r.executed = false &&
    (match messageTypes with
     | none => true
     | some ks => ks.contains r.message_type)

/-- `db.jobs.cancel`: set `cancelled := true` on every row passing
`cancelMatches`. -/
def jobsCancel (jobs : List JobRow) (demoId : Nat)
    (messageTypes : Option (List MessageType)) : List JobRow :=
  jobs.map (fun r =>
    if cancelMatches demoId messageTypes r then { r with cancelled := true } else r)

/-! ## Scheduler (`scheduler.service.ts` v2, the first document in
`src/unnamed/part_001`) -/

/-- One entry of the sequence tables (`SequenceStep`).  `specialEvening`
models `specialTiming: 'EVENING_BEFORE'`. -/
structure SequenceStep where
  messageType : MessageType
  offset : Int
  specialEvening : Bool := false
  deriving DecidableEq, Repr

/-- The `TIMING` constants of `lib/config.ts` (milliseconds) and the
`SEQUENCES` table of the v2 scheduler, inlined per demo type. -/
def SEQUENCES : DemoType → List SequenceStep
  | .SAME_DAY =>
    [ ⟨.CONFIRM_INITIAL, 0, false⟩,
      ⟨.SMS_CONFIRM, 2000, false⟩,
      ⟨.SMS_REMINDER, -(30 * 60 * 1000), false⟩,
      ⟨.JOIN_LINK, -(10 * 60 * 1000), false⟩,
      ⟨.SMS_URGENT, 8 * 60 * 1000, false⟩,
      ⟨.POST_NO_SHOW, 60 * 60 * 1000, false⟩ ]
  | .NEXT_DAY =>
    [ ⟨.CONFIRM_INITIAL, 0, false⟩,
      ⟨.SMS_CONFIRM, 2000, false⟩,
      ⟨.EVENING_BEFORE, 0, true⟩,
      ⟨.CONFIRM_REMINDER, -(4 * 60 * 60 * 1000), false⟩,
      ⟨.SMS_REMINDER, -(30 * 60 * 1000), false⟩,
      ⟨.JOIN_LINK, -(10 * 60 * 1000), false⟩,
      ⟨.SMS_URGENT, 8 * 60 * 1000, false⟩,
      ⟨.POST_NO_SHOW, 60 * 60 * 1000, false⟩ ]
  | .FUTURE =>
    [ ⟨.CONFIRM_INITIAL, 0, false⟩,
      ⟨.SMS_CONFIRM, 2000, false⟩,
      ⟨.VALUE_BOMB, -(48 * 60 * 60 * 1000), false⟩,
      ⟨.SMS_DAY_BEFORE, -(24 * 60 * 60 * 1000), false⟩,
      ⟨.DAY_OF_REMINDER, -(4 * 60 * 60 * 1000), false⟩,
      ⟨.SMS_REMINDER, -(30 * 60 * 1000), false⟩,
      ⟨.JOIN_LINK, -(10 * 60 * 1000), false⟩,
      ⟨.SMS_URGENT, 8 * 60 * 1000, false⟩,
      ⟨.POST_NO_SHOW, 60 * 60 * 1000, false⟩ ]

/-- Milliseconds per day / per hour. -/
def msPerDay : Int := 86400000

/-- `calculateEveningBefore`: 7pm local time the day before the demo.  With
the fixed-offset timezone model: shift to local wall time, floor to the local
day (`Int.fdiv` floors, matching JavaScript calendar arithmetic for any
epoch), step one day back, set 19:00, shift back to UTC. -/
def calculateEveningBefore (scheduledAt tzOffset : Int) : Int :=
  let localTime := scheduledAt + tzOffset
  let localDayStart := (Int.fdiv localTime msPerDay) * msPerDay
  let eveningLocal := localDayStart - msPerDay + 19 * 3600000
  eveningLocal - tzOffset

/-- The computed absolute send time of one step inside
`SchedulerService.scheduleSequence`: `EVENING_BEFORE` steps use the local
7pm-the-evening-before rule, the immediate kinds (`CONFIRM_INITIAL`,
`SMS_CONFIRM`) offset from `now`, every other step offsets from
`demo.scheduled_at`. -/
def stepScheduledFor (demo : DemoRow) (now : Int) (step : SequenceStep) : Int :=
  if step.specialEvening then
    calculateEveningBefore demo.scheduled_at demo.tz_offset
  else if step.messageType = .CONFIRM_INITIAL || step.messageType = .SMS_CONFIRM then
    now + step.offset
  else
    demo.scheduled_at + step.offset

/-- The body of the `for` loop of `scheduleSequence`: drop the step when its
computed time is strictly in the past, otherwise `scheduleJob` → `db.jobs.upsert`. -/
def scheduleStep (demo : DemoRow) (now : Int) (jobs : List JobRow)
    (step : SequenceStep) : List JobRow :=
  let scheduledFor := stepScheduledFor demo now step
  if scheduledFor < now then jobs
  else jobsUpsert jobs demo.id step.messageType scheduledFor

/-- `SchedulerService.scheduleSequence`, folded over an explicit step list. -/
def scheduleSteps (demo : DemoRow) (now : Int) (steps : List SequenceStep)
    (jobs : List JobRow) : List JobRow :=
  steps.foldl (scheduleStep demo now) jobs

/-- `SchedulerService.scheduleSequence`: run every step of the demo type's
sequence against the jobs table. -/
def scheduleSequence (demo : DemoRow) (now : Int) (jobs : List JobRow) : List JobRow :=
  scheduleSteps demo now (SEQUENCES demo.demo_type) jobs

/-! ## Message transport (`messaging.service.ts`)

The transport outcome is an oracle argument: `none` models `sendMail` /
`twilio.messages.create` throwing, `some extId` models success. -/

/-- `SMS_TYPES` (`messaging.service.ts`): kinds routed to Twilio. -/
def SMS_TYPES : List MessageType :=
  [.SMS_CONFIRM, .SMS_REMINDER, .SMS_JOIN_LINK, .SMS_URGENT]

/-- Kinds for which `EmailTemplates.getTemplate` returns a template (the keys
of its dispatch table in `templates/email.ts`); all other kinds give `null`. -/
def emailTemplateHas (mt : MessageType) : Bool :=
  [MessageType.CONFIRM_INITIAL, .CONFIRM_REMINDER, .DAY_OF_REMINDER, .JOIN_LINK,
   .JOIN_URGENT, .SOONER_OFFER, .RECEIPT].contains mt

/-- Kinds for which `SmsTemplates.getTemplate` returns a template
(`templates/sms.ts`). -/
def smsTemplateHas (mt : MessageType) : Bool :=
  [MessageType.SMS_REMINDER, .SMS_JOIN_LINK, .SMS_URGENT].contains mt

/-- `db.messages.exists`: is there a `messages` row for `(demo_id, message_type)`? -/
def messageExists (msgs : List MessageRow) (demoId : Nat) (mt : MessageType) : Bool :=
  msgs.any (fun m => m.demo_id = demoId && m.message_type = mt)

/-- Fresh primary key for a `messages` insert. -/
def freshMessageId (msgs : List MessageRow) : Nat :=
  msgs.foldl (fun m r => max m r.id) 0 + 1

/-- `MessagingService.sendEmail`: skip (`null`) when the message was already
recorded or no template exists; otherwise the transport either throws
(`transport = none`) or succeeds, after which the `messages` audit row is
inserted.  Message *content* is out of scope (spec §1); only the control flow
around it is modelled. -/
def sendEmail (s : DBState) (demo : DemoRow) (mt : MessageType)
    (transport : Option Nat) : Except Unit (DBState × Option Nat) :=
  if messageExists s.messages demo.id mt then .ok (s, none)
  else if ¬ emailTemplateHas mt then .ok (s, none)
  else
    match transport with
    | none => .error ()
    | some extId =>
      let mid := freshMessageId s.messages
      .ok ({ s with messages :=
              s.messages ++ [⟨mid, demo.id, mt, demo.email, some extId⟩] }, some mid)

/-- `MessagingService.sendSms`: additionally skips when the demo has no phone
number. -/
def sendSms (s : DBState) (demo : DemoRow) (mt : MessageType)
    (transport : Option Nat) : Except Unit (DBState × Option Nat) :=
  match demo.phone with
  | none => .ok (s, none)
  | some ph =>
    if messageExists s.messages demo.id mt then .ok (s, none)
    else if ¬ smsTemplateHas mt then .ok (s, none)
    else
      match transport with
      | none => .error ()
      | some extId =>
        let mid := freshMessageId s.messages
        .ok ({ s with messages :=
                s.messages ++ [⟨mid, demo.id, mt, ph, some extId⟩] }, some mid)

/-- `MessagingService.sendMessage`: route by kind. -/
def sendMessage (s : DBState) (demo : DemoRow) (mt : MessageType)
    (transport : Option Nat) : Except Unit (DBState × Option Nat) :=
  if SMS_TYPES.contains mt then sendSms s demo mt transport
  else sendEmail s demo mt transport

/-! ## Executor (`app/api/cron/route.ts`, the `processJobWithLock` version) -/

/-- Outcome statuses returned per job by the Executor (the string statuses of
`/api/cron`; `errored` is the thrown-error case the sweep loop catches and
records as status `"error"`). -/
inductive JobStatus
  | already_claimed
  | skipped_no_demo
  | skipped_terminal_state
  | skipped_not_confirmed
  | already_sent
  | sent
  | errored
  deriving DecidableEq, Repr

/-- The guard of the atomic claim update: `id = job.id AND executed = false
AND cancelled = false AND processing = false`. -/
def claimGuard (job : JobRow) (r : JobRow) : Bool :=
  r.id = job.id && r.executed = false && r.cancelled = false && r.processing = false

/-- The atomic conditional claim update: `set processing = true,
processing_started_at = now` on every row matching `claimGuard`. -/
def claimUpdate (jobs : List JobRow) (job : JobRow) (now : Int) : List JobRow :=
  jobs.map (fun r =>
    if claimGuard job r then
      { r with processing := true, processing_started_at := some now }
    else r)

/-- `markCompleted`: `set executed = true, executed_at = now, processing =
false, processing_started_at = null where id = jobId`. -/
def markCompleted (jobs : List JobRow) (jobId : Nat) (now : Int) : List JobRow :=
  jobs.map (fun r =>
    if r.id = jobId then
      { r with executed := true, executed_at := some now,
               processing := false, processing_started_at := none }
    else r)

/-- The catch-block release: `set processing = false, processing_started_at =
null where id = jobId`. -/
def releaseLock (jobs : List JobRow) (jobId : Nat) : List JobRow :=
  jobs.map (fun r =>
    if r.id = jobId then
      { r with processing := false, processing_started_at := none }
    else r)

/-- `demos` lookup by primary key (`.eq('id', ...).single()`). -/
def findDemo (demos : List DemoRow) (id : Nat) : Option DemoRow :=
  demos.find? (fun d => d.id = id)

/-- The terminal/blocking statuses re-validated after the claim. -/
def terminalStatuses : List DemoStatus :=
  [.CANCELLED, .RESCHEDULED, .COMPLETED, .NO_SHOW]

/-- Result of one claim-execute-resolve pass: the post state, the reported
status, and whether the message transport was invoked. -/
structure ProcResult where
  state : DBState
  status : JobStatus
  dispatched : Bool
  deriving DecidableEq, Repr

/-- `processJobWithLock` (`/api/cron`): atomically claim, re-validate the
booking, apply the JOIN_LINK confirmation gate, the duplicate-send guard,
dispatch, and resolve.  A throwing dispatch releases the claim and propagates
(status `"error"` at the sweep loop). -/
def processJobWithLock (s : DBState) (job : JobRow) (now : Int)
    (transport : Option Nat) : ProcResult :=
  let matched := s.jobs.any (claimGuard job)
  let s1 : DBState := { s with jobs := claimUpdate s.jobs job now }
  if ¬ matched then
    { state := s1, status := .already_claimed, dispatched := false }
  else
    match findDemo s1.demos job.demo_id with
    | none =>
      { state := { s1 with jobs := markCompleted s1.jobs job.id now },
        status := .skipped_no_demo, dispatched := false }
    | some demo =>
      if terminalStatuses.contains demo.status then
        { state := { s1 with jobs := markCompleted s1.jobs job.id now },
          status := .skipped_terminal_state, dispatched := false }
      else if job.message_type = .JOIN_LINK ∧ demo.demo_type = .FUTURE ∧
          demo.status ≠ .CONFIRMED then
        { state := { s1 with jobs := markCompleted s1.jobs job.id now },
          status := .skipped_not_confirmed, dispatched := false }
      else if messageExists s1.messages job.demo_id job.message_type then
        { state := { s1 with jobs := markCompleted s1.jobs job.id now },
          status := .already_sent, dispatched := false }
      else
        match sendMessage s1 demo job.message_type transport with
        | .ok (s2, _) =>
          { state := { s2 with jobs := markCompleted s2.jobs job.id now },
            status := .sent, dispatched := true }
        | .error _ =>
          { state := { s1 with jobs := releaseLock s1.jobs job.id },
            status := .errored, dispatched := true }

/-- The candidate filter of the sweep query: `executed = false AND cancelled
= false AND processing = false AND scheduled_for <= now`. -/
def dueJobGuard (now : Int) (r : JobRow) : Bool :=
  r.executed = false && r.cancelled = false && r.processing = false &&
    r.scheduled_for ≤ now

/-- The sweep's candidate selection (`GET /api/cron`): filter plus
`.limit(10)`; the query carries **no** `ORDER BY`, so rows keep store order. -/
def selectDueJobs (s : DBState) (now : Int) : List JobRow :=
  (s.jobs.filter (dueJobGuard now)).take 10

/-- Is a job list ascending by target send time? -/
def ascendingByTime : List JobRow → Bool
  | [] => true
  | [_] => true
  | a :: b :: rest => (a.scheduled_for ≤ b.scheduled_for) && ascendingByTime (b :: rest)

/-! ## Reply Classifier (`ReplyService.parseIntent`)

The source classifies with JavaScript regexes over the trimmed, lowercased
body.  Anchored alternations (`^(a|b|...)$`) are exact membership in the list
of alternatives; `\b(a|b|...)\b` is a substring occurrence of one alternative
flanked by word boundaries (JS `\w` = ASCII alphanumerics and underscore);
`'?` expands each alternative into its two literal spellings. -/

/-- The apostrophe character, used inside several reply patterns. -/
def apos : String := String.mk [Char.ofNat 39]

/-- JavaScript `toLowerCase()` (character-wise lowering). -/
def jsToLower (s : String) : String :=
  String.mk (s.data.map Char.toLower)

/-- Whitespace stripped by JavaScript `trim()`. -/
def isJsWhitespace (c : Char) : Bool :=
  c = ' ' || c = '\t' || c = '\n' || c = '\r' || c = Char.ofNat 11 || c = Char.ofNat 12

/-- JavaScript `trim()`: strip whitespace from both ends. -/
def jsTrim (s : String) : String :=
  String.mk (((s.data.dropWhile isJsWhitespace).reverse.dropWhile isJsWhitespace).reverse)

/-- JS word character (`\w`): ASCII alphanumeric or underscore. -/
def isWordChar (c : Char) : Bool :=
  c.isAlphanum || c = '_'

/-- A position boundary is fine when the neighbouring character is absent or
a non-word character. -/
def boundaryOk (neighbour : Option Char) : Bool :=
  match neighbour with
  | none => true
  | some c => ¬ isWordChar c

/-- Scan for an occurrence of `pat` with word boundaries on both sides;
`prev` is the character just before the current position. -/
def boundedContainsAux (pat : List Char) : Option Char → List Char → Bool
  | prev, [] => boundaryOk prev && pat.isPrefixOf ([] : List Char)
  | prev, c :: cs =>
    (boundaryOk prev && pat.isPrefixOf (c :: cs) &&
      boundaryOk (((c :: cs).drop pat.length).head?))
    || boundedContainsAux pat (some c) cs

/-- `\bpat\b` as a test on the whole string. -/
def boundedContains (s pat : String) : Bool :=
  boundedContainsAux pat.data none s.data

/-- Alternatives of the anchored YES pattern. -/
def yesExact : List String :=
  ["yes", "yep", "yeah", "yup", "y", "confirm", "confirmed",
   "i" ++ apos ++ "m in", "im in", "count me in", "see you", "sounds good",
   "perfect", "great", "ok", "okay", "good", "👍", "✓", "✔"]

/-- Alternatives of the word-bounded YES pattern. -/
def yesBounded : List String :=
  ["yes", "confirm", "i" ++ apos ++ "ll be there", "ill be there",
   "i" ++ apos ++ "m coming", "im coming", "see you then"]

/-- Alternatives of the anchored RESCHEDULE pattern. -/
def reschedExact : List String :=
  ["reschedule", "cancel", "can" ++ apos ++ "t", "cant", "cannot",
   "won" ++ apos ++ "t", "wont", "unable", "no", "nope", "n", "change",
   "move", "different time", "another time"]

/-- Alternatives of the word-bounded RESCHEDULE pattern. -/
def reschedBounded : List String :=
  ["reschedule", "can" ++ apos ++ "t make", "cant make",
   "won" ++ apos ++ "t work", "wont work", "need to cancel",
   "change the time", "different time", "move it"]

/-- Alternatives of the anchored SOONER pattern. -/
def soonerExact : List String :=
  ["sooner", "earlier", "asap", "now", "today", "tomorrow", "1", "2"]

/-- Word-bounded alternatives mapping to option 1. -/
def oneBounded : List String := ["option 1", "first one", "morning"]

/-- Word-bounded alternatives mapping to option 2. -/
def twoBounded : List String := ["option 2", "second one", "afternoon"]

/-- `ReplyService.parseIntent`: sequential pattern checks over the trimmed,
lowercased body. -/
def parseIntent (body : String) : Intent :=
  let normalized := jsToLower (jsTrim body)
  if yesExact.contains normalized then .YES
  else if yesBounded.any (boundedContains normalized) then .YES
  else if reschedExact.contains normalized then .RESCHEDULE
  else if reschedBounded.any (boundedContains normalized) then .RESCHEDULE
  else if soonerExact.contains normalized then
    if normalized = "1" then .ONE
    else if normalized = "2" then .TWO
    else .SOONER
  else if normalized = "1" then .ONE
  else if normalized = "2" then .TWO
  else if oneBounded.any (boundedContains normalized) then .ONE
  else if twoBounded.any (boundedContains normalized) then .TWO
  else .UNKNOWN

/-! ## Booking state updates (`DemoService.updateStatus`, `db.demos`) -/

/-- The open statuses used when matching an inbound reply to a booking. -/
def openStatuses : List DemoStatus := [.PENDING, .CONFIRMED]

/-- `db.demos.findByEmail`: lowercased-email match among open bookings,
ordered by `scheduled_at` ascending, `limit 1` — i.e. the first booking with
the minimal scheduled instant. -/
def demosFindByEmail (demos : List DemoRow) (email : String) : Option DemoRow :=
  (demos.filter (fun d => d.email = jsToLower email && openStatuses.contains d.status)).foldl
    (fun acc d =>
      match acc with
      | none => some d
      | some b => if d.scheduled_at < b.scheduled_at then some d else some b)
    none

/-- `DemoService.updateStatus` on one row: sets the status; when the new
status is `CONFIRMED` it also (unconditionally) sets `confirmed_at := now`;
`joined_at` is set only when supplied. -/
def updateStatusRow (demo : DemoRow) (status : DemoStatus) (now : Int)
    (joinedAt : Option Int) : DemoRow :=
  { demo with
    status := status,
    confirmed_at := if status = .CONFIRMED then some now else demo.confirmed_at,
    joined_at := match joinedAt with | some t => some t | none => demo.joined_at }

/-- `DemoService.updateStatus` on the `demos` table (`.eq('id', id)`). -/
def demosUpdateStatus (demos : List DemoRow) (id : Nat) (status : DemoStatus)
    (now : Int) (joinedAt : Option Int) : List DemoRow :=
  demos.map (fun d => if d.id = id then updateStatusRow d status now joinedAt else d)

/-- The SMS webhook's YES branch (`/api/webhooks/reply/sms`): a bare
`update demos set status = 'CONFIRMED' where id = demoId` — it never touches
`confirmed_at`. -/
def smsYesUpdate (demos : List DemoRow) (demoId : Nat) : List DemoRow :=
  demos.map (fun d => if d.id = demoId then { d with status := .CONFIRMED } else d)

/-! ## Reply Handler (`ReplyService.processReply`) -/

/-- Observable effects of reply processing, in execution order. -/
inductive ReplyEvent
  | insertReply (demoId : Option Nat) (intent : Intent) (processed : Bool)
  | updateDemoStatus (demoId : Nat) (status : DemoStatus)
  | cancelJobs (demoId : Nat)
  deriving DecidableEq, Repr

/-- Fresh primary key for a `replies` insert. -/
def freshReplyId (rs : List ReplyRow) : Nat :=
  rs.foldl (fun m r => max m r.id) 0 + 1

/-- `ReplyService.executeIntent`: apply the classified intent to the booking
and its jobs, returning the action tag of the source. -/
def executeIntent (s : DBState) (demo : DemoRow) (intent : Intent) (now : Int) :
    DBState × String × List ReplyEvent :=
  match intent with
  | .YES =>
    ({ s with demos := demosUpdateStatus s.demos demo.id .CONFIRMED now none },
     "CONFIRMED", [.updateDemoStatus demo.id .CONFIRMED])
  | .RESCHEDULE =>
    let s1 : DBState :=
      { s with demos := demosUpdateStatus s.demos demo.id .RESCHEDULED now none }
    ({ s1 with jobs := jobsCancel s1.jobs demo.id none },
     "RESCHEDULED", [.updateDemoStatus demo.id .RESCHEDULED, .cancelJobs demo.id])
  | .SOONER => (s, "SOONER_REQUESTED_SOONER", [])
  | .ONE => (s, "SOONER_REQUESTED_1", [])
  | .TWO => (s, "SOONER_REQUESTED_2", [])
  | .UNKNOWN => (s, "UNKNOWN_INTENT", [])

/-- Result of `processReply`: post state, matched booking, classified intent,
action tag, and the effect trace. -/
structure ReplyOutcome where
  state : DBState
  demo : Option DemoRow
  intent : Intent
  action : String
  trace : List ReplyEvent
  deriving DecidableEq, Repr

/-- `ReplyService.processReply`: classify, match the booking by sender email,
record the reply **first**, then (only when a booking matched) apply the
intent. -/
def processReply (s : DBState) (fromEmail body : String) (now : Int) : ReplyOutcome :=
  let intent := parseIntent body
  let demo := demosFindByEmail s.demos fromEmail
  let row : ReplyRow :=
    ⟨freshReplyId s.replies, demo.map (·.id), fromEmail, body, intent, demo.isSome⟩
  let s1 : DBState := { s with replies := s.replies ++ [row] }
  let ev0 := [ReplyEvent.insertReply (demo.map (·.id)) intent demo.isSome]
  match demo with
  | none => ⟨s1, none, intent, "NO_DEMO_FOUND", ev0⟩
  | some d =>
    let res := executeIntent s1 d intent now
    ⟨res.1, some d, intent, res.2.1, ev0 ++ res.2.2⟩

example : parseIntent "yes" = .YES := by decide
example : parseIntent "  YES " = .YES := by decide
example : parseIntent "Yep, see you then!" = .YES := by decide
example : parseIntent "zzz" = .UNKNOWN := by decide

/-! ## Concrete fixtures used by witnesses and counterexamples -/

/-- A pending FUTURE booking. -/
def demoFix : DemoRow :=
  { id := 1, email := "a@b.c", phone := none, name := "Ada Lovelace",
    scheduled_at := 1000000, tz_offset := 0, demo_type := .FUTURE,
    status := .PENDING, confirmed_at := none, joined_at := none }

/-- The booking above, already confirmed at instant 100. -/
def demoConfirmed : DemoRow :=
  { demoFix with status := .CONFIRMED, confirmed_at := some 100 }

/-- A due, unexecuted, uncancelled, unclaimed job at target time 100. -/
def jobLate : JobRow :=
  { id := 1, demo_id := 1, message_type := .CONFIRM_INITIAL, scheduled_for := 100,
    executed := false, executed_at := none, cancelled := false,
    processing := false, processing_started_at := none }

/-- A second due job at the earlier target time 50, appearing later in the
table. -/
def jobEarly : JobRow :=
  { jobLate with id := 2, message_type := .JOIN_LINK, scheduled_for := 50 }

/-- A store whose jobs table holds the two due jobs in non-ascending
target-time order. -/
def stateTwoDue : DBState := ⟨[demoFix], [jobLate, jobEarly], [], []⟩

/-- A store holding one pending booking and one due job. -/
def stateOneDue : DBState := ⟨[demoFix], [jobLate], [], []⟩

/-- `jobLate`, already claimed by a concurrent sweep. -/
def jobLateClaimed : JobRow :=
  { jobLate with processing := true, processing_started_at := some 60 }

/-- A store where the only due job is already claimed. -/
def stateClaimed : DBState := ⟨[demoFix], [jobLateClaimed], [], []⟩

/-- A due JOIN_LINK job for the FUTURE booking. -/
def jobJoinLink : JobRow := { jobLate with message_type := .JOIN_LINK }

/-- A store with an unconfirmed FUTURE booking and its due JOIN_LINK job. -/
def stateJoinLink : DBState := ⟨[demoFix], [jobJoinLink], [], []⟩

/-- The Job identity invariant of the data model: no two rows share a
`(demo_id, message_type)` pair. -/
def jobsUnique (jobs : List JobRow) : Prop :=
  jobs.Pairwise (fun a b => ¬(a.demo_id = b.demo_id ∧ a.message_type = b.message_type))

/-- `n` consecutive sweep attempts at the same job, each with a throwing
transport (`none`): the state produced by repeatedly running
`processJobWithLock` on the job row. -/
def iterateFailingAttempts (job : JobRow) (now : Int) : Nat → DBState → DBState
  | 0, s => s
  | n + 1, s => iterateFailingAttempts job now n (processJobWithLock s job now none).state

/-! # Theorems -/

/-! ## C2 — classification boundaries -/

/-- C2 counterexample: a scheduled instant exactly 12.01 hours
(43 236 000 ms) ahead of "now" classifies as `SAME_DAY` (IMMEDIATE_WINDOW),
not `NEXT_DAY` (NEAR_WINDOW) as the claim states: `differenceInHours`
truncates 12.01 to 12 whole hours. -/
theorem C2_counterexample :
    classifyDemoType 43236000 0 = DemoType.SAME_DAY ∧
      DemoType.SAME_DAY ≠ DemoType.NEXT_DAY := by
  decide

/-- C2 (amended): classification buckets by the *whole-hour* difference
`differenceInHours` (which truncates toward zero), with boundaries in the
lower bucket: ≤ 12 whole hours → SAME_DAY, ≤ 36 → NEXT_DAY, else FUTURE.
Consequently the instants 12.0 h, 12.01 h, 36.0 h, 36.01 h ahead of now
classify as SAME_DAY, SAME_DAY, NEXT_DAY, NEXT_DAY respectively. -/
theorem C2_classifyDemoType_buckets (scheduledAt now : Int) :
    (classifyDemoType scheduledAt now = .SAME_DAY ↔
      differenceInHours scheduledAt now ≤ 12) ∧
    (classifyDemoType scheduledAt now = .NEXT_DAY ↔
      12 < differenceInHours scheduledAt now ∧
        differenceInHours scheduledAt now ≤ 36) ∧
    (classifyDemoType scheduledAt now = .FUTURE ↔
      36 < differenceInHours scheduledAt now) ∧
    classifyDemoType (now + 43200000) now = .SAME_DAY ∧
    classifyDemoType (now + 43236000) now = .SAME_DAY ∧
    classifyDemoType (now + 129600000) now = .NEXT_DAY ∧
    classifyDemoType (now + 129636000) now = .NEXT_DAY := by
  refine ⟨?_, ?_, ?_, ?_, ?_, ?_, ?_⟩
  · simp only [classifyDemoType]
    split_ifs with h1 h2 <;> simp_all
  · simp only [classifyDemoType]
    split_ifs with h1 h2 <;> simp_all
  · simp only [classifyDemoType]
    split_ifs with h1 h2 <;> simp_all
    omega
  · simp only [classifyDemoType, differenceInHours, add_sub_cancel_left]
    decide
  · simp only [classifyDemoType, differenceInHours, add_sub_cancel_left]
    decide
  · simp only [classifyDemoType, differenceInHours, add_sub_cancel_left]
    decide
  · simp only [classifyDemoType, differenceInHours, add_sub_cancel_left]
    decide

/-- C2 witness: the bucket characterisation applied at a concrete instant
12 hours ahead of now = 0. -/
theorem C2_witness : classifyDemoType 43200000 0 = .SAME_DAY :=
  (C2_classifyDemoType_buckets 43200000 0).1.mpr (by decide)

/-! ## C6 — cancelAll / cancelKinds frame and idempotence -/

/-- C6: `db.jobs.cancel` (backing `cancelAllJobs` / `cancelJobTypes`) marks
exactly the matching unexecuted rows cancelled: it is idempotent, leaves every
executed row entirely unchanged, leaves every non-matching row unchanged, and
rewrites a matching row only in its `cancelled` flag. -/
theorem C6_jobsCancel_spec (jobs : List JobRow) (demoId : Nat)
    (kinds : Option (List MessageType)) :
    jobsCancel (jobsCancel jobs demoId kinds) demoId kinds
        = jobsCancel jobs demoId kinds ∧
    (∀ (i : Nat) (r : JobRow), jobs[i]? = some r → r.executed = true →
      (jobsCancel jobs demoId kinds)[i]? = some r) ∧
    (∀ (i : Nat) (r : JobRow), jobs[i]? = some r →
      cancelMatches demoId kinds r = false →
      (jobsCancel jobs demoId kinds)[i]? = some r) ∧
    (∀ (i : Nat) (r : JobRow), jobs[i]? = some r →
      cancelMatches demoId kinds r = true →
      (jobsCancel jobs demoId kinds)[i]? = some { r with cancelled := true }) := by
  refine ⟨?_, ?_, ?_, ?_⟩
  · show (jobs.map _).map _ = jobs.map _
    rw [List.map_map]
    apply List.map_congr_left
    intro r _
    by_cases h : cancelMatches demoId kinds r = true
    · simp only [Function.comp]
      have h2 : cancelMatches demoId kinds { r with cancelled := true } = true := by
        simpa [cancelMatches] using h
      simp [h, h2]
    · simp only [Function.comp]
      simp [eq_false_of_ne_true h]
  · intro i r hir he
    have hne : cancelMatches demoId kinds r = false := by
      simp [cancelMatches, he]
    simp [jobsCancel, List.getElem?_map, hir, hne]
  · intro i r hir hne
    simp [jobsCancel, List.getElem?_map, hir, hne]
  · intro i r hir hm
    simp [jobsCancel, List.getElem?_map, hir, hm]

/-- C6 witness: cancelling a booking's jobs in a concrete two-job store is
idempotent and leaves its executed row untouched. -/
theorem C6_witness :
    (jobsCancel [{ jobLate with executed := true }] 1 none)[0]?
      = some { jobLate with executed := true } :=
  (C6_jobsCancel_spec [{ jobLate with executed := true }] 1 none).2.1 0
    { jobLate with executed := true } (by decide) (by decide)

/-! ## C8 — confirmed-at on affirmative replies -/

/-- C8 counterexample: re-applying an affirmative reply to an
already-CONFIRMED booking (confirmed at instant 100) *changes* `confirmed_at`
to the new current instant 200 — `DemoService.updateStatus` overwrites it
unconditionally, not "only if it is not already set". -/
theorem C8_counterexample :
    (updateStatusRow demoConfirmed .CONFIRMED 200 none).confirmed_at
        ≠ demoConfirmed.confirmed_at ∧
    (updateStatusRow demoConfirmed .CONFIRMED 200 none).status = .CONFIRMED := by
  decide

/-- C8 (amended): applying an affirmative reply through
`DemoService.updateStatus` sets the status to CONFIRMED and unconditionally
overwrites `confirmed_at` with the current instant (so re-application moves
it); a non-CONFIRMED transition leaves `confirmed_at` alone; and the SMS
webhook's YES branch sets only the status, never touching `confirmed_at`. -/
theorem C8_updateStatus_confirmed_at (demo : DemoRow) (status : DemoStatus)
    (now : Int) (j : Option Int) (demos : List DemoRow) (demoId : Nat) :
    (updateStatusRow demo .CONFIRMED now j).status = .CONFIRMED ∧
    (updateStatusRow demo .CONFIRMED now j).confirmed_at = some now ∧
    (status ≠ .CONFIRMED →
      (updateStatusRow demo status now j).confirmed_at = demo.confirmed_at) ∧
    (smsYesUpdate demos demoId).map (fun d => d.confirmed_at)
        = demos.map (fun d => d.confirmed_at) := by
  refine ⟨by simp [updateStatusRow], by simp [updateStatusRow], ?_, ?_⟩
  · intro h
    simp [updateStatusRow, h]
  · rw [smsYesUpdate, List.map_map]
    apply List.map_congr_left
    intro d _
    by_cases h : d.id = demoId <;> simp [h]

/-- C8 witness: a RESCHEDULED transition at a concrete booking leaves
`confirmed_at` unchanged. -/
theorem C8_witness :
    (updateStatusRow demoFix .RESCHEDULED 200 none).confirmed_at
      = demoFix.confirmed_at :=
  (C8_updateStatus_confirmed_at demoFix .RESCHEDULED 200 none [] 0).2.2.1
    (by decide)

/-! ## C9 — sweep candidate selection -/

/-- C9 counterexample: with two due jobs stored in non-ascending target-time
order (ids 1 and 2 at times 100 and 50), the sweep's candidate list — the
query has no ORDER BY — is `[1, 2]`, which is *not* ascending by target
time. -/
theorem C9_counterexample :
    ascendingByTime (selectDueJobs stateTwoDue 100) = false ∧
    (selectDueJobs stateTwoDue 100).map (fun j => j.id) = [1, 2] := by
  decide

/-- C9 (amended): the sweep selects the unexecuted, uncancelled, unclaimed
jobs whose target time is ≤ now, at most 10 of them, in store order (the
selection is a sublist of the jobs table); no target-time ordering is
requested or guaranteed. -/
theorem C9_selectDueJobs_spec (s : DBState) (now : Int) :
    (∀ j ∈ selectDueJobs s now, j ∈ s.jobs ∧ j.executed = false ∧
      j.cancelled = false ∧ j.processing = false ∧ j.scheduled_for ≤ now) ∧
    (selectDueJobs s now).length ≤ 10 ∧
    (selectDueJobs s now).Sublist s.jobs := by
  have hsub : (selectDueJobs s now).Sublist (s.jobs.filter (dueJobGuard now)) :=
    List.take_sublist _ _
  have hsub2 : (s.jobs.filter (dueJobGuard now)).Sublist s.jobs :=
    List.filter_sublist _
  refine ⟨?_, ?_, hsub.trans hsub2⟩
  · intro j hj
    have hjf : j ∈ s.jobs.filter (dueJobGuard now) := hsub.subset hj
    obtain ⟨hmem, hguard⟩ := List.mem_filter.mp hjf
    simp only [dueJobGuard, Bool.and_eq_true, decide_eq_true_eq] at hguard
    exact ⟨hmem, hguard.1.1.1, hguard.1.1.2, hguard.1.2, hguard.2⟩
  · simp only [selectDueJobs, List.length_take]
    omega

/-- C9 witness: the amended selection property evaluated for the first job of
the concrete two-due-jobs store. -/
theorem C9_witness :
    jobLate ∈ stateTwoDue.jobs ∧ jobLate.executed = false ∧
      jobLate.cancelled = false ∧ jobLate.processing = false ∧
      jobLate.scheduled_for ≤ 100 :=
  (C9_selectDueJobs_spec stateTwoDue 100).1 jobLate (by decide)

/-! ## C1 — atomic claim before dispatch -/

/-- Helper: when no row passes the claim guard, the conditional claim update
leaves the jobs table untouched. -/
theorem claimUpdate_of_no_match (jobs : List JobRow) (job : JobRow) (now : Int)
    (h : jobs.any (claimGuard job) = false) : claimUpdate jobs job now = jobs := by
  have hall := List.any_eq_false.mp h
  unfold claimUpdate
  rw [show jobs.map _ = jobs.map id from ?_, List.map_id]
  apply List.map_congr_left
  intro r hr
  simp [hall r hr]

/-- Helper: the lost-the-race outcome — when no row passes the claim guard,
`processJobWithLock` returns `already_claimed` with the store unchanged and no
dispatch. -/
theorem processJob_no_match (s : DBState) (job : JobRow) (now : Int)
    (transport : Option Nat) (h : s.jobs.any (claimGuard job) = false) :
    processJobWithLock s job now transport =
      { state := s, status := .already_claimed, dispatched := false } := by
  have hid : claimUpdate s.jobs job now = s.jobs := claimUpdate_of_no_match _ _ _ h
  simp [processJobWithLock, h, hid]

/-- C1: the Executor dispatches only after the single atomic conditional
claim update (processing := true, guarded by unexecuted ∧ uncancelled ∧
unclaimed) matched the job's row; when it matches zero rows the result is
exactly status `already_claimed` with the store unchanged and no transport
invocation. -/
theorem C1_claim_protocol (s : DBState) (job : JobRow) (now : Int)
    (transport : Option Nat) :
    (s.jobs.any (claimGuard job) = false →
      processJobWithLock s job now transport =
        { state := s, status := .already_claimed, dispatched := false }) ∧
    ((processJobWithLock s job now transport).dispatched = true →
      s.jobs.any (claimGuard job) = true) := by
  constructor
  · exact processJob_no_match s job now transport
  · intro hdisp
    by_cases h : s.jobs.any (claimGuard job) = true
    · exact h
    · exfalso
      have h0 : s.jobs.any (claimGuard job) = false := by
        simpa using h
      rw [processJob_no_match s job now transport h0] at hdisp
      simp at hdisp

/-- C1 witness: a due job whose stored row was already claimed by a
concurrent sweep yields `already_claimed`, an unchanged store, and no
dispatch. -/
theorem C1_witness :
    processJobWithLock stateClaimed jobLate 100 (some 7)
      = { state := stateClaimed, status := .already_claimed, dispatched := false } :=
  (C1_claim_protocol stateClaimed jobLate 100 (some 7)).1 (by decide)

/-! ## C10 — JOIN_LINK confirmation gate (FUTURE bookings only) -/

/-- C10: a due JOIN_LINK job of a FUTURE booking whose status is not
CONFIRMED at execution time is marked executed with status
`skipped_not_confirmed` and the transport is never invoked — the messages
table is untouched (so no Message row arises for the pair, and the executed
flag keeps the job out of every later sweep's candidate set).  Conversely,
`skipped_not_confirmed` can only arise for a JOIN_LINK job of a FUTURE,
non-CONFIRMED booking: the gate applies to no other demo type. -/
theorem C10_join_link_gate (s : DBState) (job : JobRow) (now : Int)
    (transport : Option Nat) :
    (∀ demo : DemoRow,
      s.jobs.any (claimGuard job) = true →
      findDemo s.demos job.demo_id = some demo →
      terminalStatuses.contains demo.status = false →
      job.message_type = .JOIN_LINK → demo.demo_type = .FUTURE →
      demo.status ≠ .CONFIRMED →
      processJobWithLock s job now transport =
        { state := { s with jobs := markCompleted (claimUpdate s.jobs job now) job.id now },
          status := .skipped_not_confirmed, dispatched := false }) ∧
    ((processJobWithLock s job now transport).status = .skipped_not_confirmed →
      job.message_type = .JOIN_LINK ∧
      ∃ demo : DemoRow, findDemo s.demos job.demo_id = some demo ∧
        demo.demo_type = .FUTURE ∧ demo.status ≠ .CONFIRMED) := by
  constructor
  · intro demo hclaim hdemo hterm hjl hfut hconf
    have hterm2 : demo.status ∉ terminalStatuses := by simpa using hterm
    simp only [processJobWithLock, hclaim, hdemo]
    simp [hterm2, hjl, hfut, hconf]
  · intro hstat
    by_cases hclaim : s.jobs.any (claimGuard job) = true
    · cases hdemo : findDemo s.demos job.demo_id with
      | none =>
        simp [processJobWithLock, hclaim, hdemo] at hstat
      | some demo =>
        by_cases hterm : demo.status ∈ terminalStatuses
        · simp [processJobWithLock, hclaim, hdemo, hterm] at hstat
        · by_cases hgate : job.message_type = .JOIN_LINK ∧ demo.demo_type = .FUTURE ∧
              demo.status ≠ .CONFIRMED
          · exact ⟨hgate.1, demo, rfl, hgate.2.1, hgate.2.2⟩
          · by_cases hmsg : messageExists s.messages job.demo_id job.message_type = true
            · simp [processJobWithLock, hclaim, hdemo, hterm, hgate, hmsg] at hstat
            · cases hsend : sendMessage { s with jobs := claimUpdate s.jobs job now }
                  demo job.message_type transport with
              | ok p =>
                simp [processJobWithLock, hclaim, hdemo, hterm, hgate, hmsg, hsend] at hstat
              | error e =>
                simp [processJobWithLock, hclaim, hdemo, hterm, hgate, hmsg, hsend] at hstat
    · have h0 : s.jobs.any (claimGuard job) = false := by simpa using hclaim
      rw [processJob_no_match s job now transport h0] at hstat
      simp at hstat

/-- C10 witness: the gate evaluated on a concrete due JOIN_LINK job of a
pending FUTURE booking. -/
theorem C10_witness :
    processJobWithLock stateJoinLink jobJoinLink 200 (some 7) =
      { state := { stateJoinLink with
          jobs := markCompleted (claimUpdate stateJoinLink.jobs jobJoinLink 200)
                    jobJoinLink.id 200 },
        status := .skipped_not_confirmed, dispatched := false } :=
  (C10_join_link_gate stateJoinLink jobJoinLink 200 (some 7)).1 demoFix
    (by decide) (by decide) (by decide) (by decide) (by decide) (by decide)

/-! ## C3 — failure handling: no retry counter, no ceiling -/

/-- C3 counterexample: a job whose dispatch throws on every attempt is still
neither cancelled nor executed after 3 attempts (the claim's example ceiling)
— the store has no retry counter at all, each failing attempt merely releases
the claim (`errored` outcome) and leaves the row exactly as it was. -/
theorem C3_counterexample :
    (iterateFailingAttempts jobLate 100 3 stateOneDue).jobs.map
        (fun j => (j.cancelled, j.executed)) = [(false, false)] ∧
    (processJobWithLock stateOneDue jobLate 100 none).status = .errored ∧
    iterateFailingAttempts jobLate 100 3 stateOneDue = stateOneDue := by
  decide

/-- C3 (amended): on a dispatch failure the Executor releases the claim
(`processing := false`, `processing_started_at := null`) and re-raises, so the
sweep records status "error"; the row's `executed`, `cancelled`,
`scheduled_for` and every other column are untouched — the whole store is
left exactly as before the attempt.  There is no retry counter and no
ceiling: any number of consecutive failing attempts leaves the job
uncancelled and eligible for retry by every future sweep. -/
theorem C3_failure_spec (s : DBState) (job : JobRow) (now : Int) (demo : DemoRow)
    (hrow : ∀ r ∈ s.jobs, r.id = job.id → r = job)
    (hmem : job ∈ s.jobs)
    (hexec : job.executed = false) (hcanc : job.cancelled = false)
    (hproc : job.processing = false) (hpsa : job.processing_started_at = none)
    (hdemo : findDemo s.demos job.demo_id = some demo)
    (hterm : demo.status ∉ terminalStatuses)
    (hgate : ¬(job.message_type = .JOIN_LINK ∧ demo.demo_type = .FUTURE ∧
      demo.status ≠ .CONFIRMED))
    (hmsg : messageExists s.messages job.demo_id job.message_type = false)
    (hsms : SMS_TYPES.contains job.message_type = false)
    (htpl : emailTemplateHas job.message_type = true) :
    (processJobWithLock s job now none).status = .errored ∧
    (processJobWithLock s job now none).state = s ∧
    ∀ n : Nat, iterateFailingAttempts job now n s = s := by
  have hclaim : s.jobs.any (claimGuard job) = true := by
    refine List.any_eq_true.mpr ⟨job, hmem, ?_⟩
    simp [claimGuard, hexec, hcanc, hproc]
  have hdid : demo.id = job.demo_id := by
    have := List.find?_some hdemo
    simpa using this
  have hsend : sendMessage { s with jobs := claimUpdate s.jobs job now } demo
      job.message_type none = .error () := by
    have hsms2 : ¬ (job.message_type ∈ SMS_TYPES) := by simpa using hsms
    simp [sendMessage, hsms2, sendEmail, hdid, hmsg, htpl]
  have hrelease : releaseLock (claimUpdate s.jobs job now) job.id = s.jobs := by
    unfold releaseLock claimUpdate
    rw [List.map_map]
    rw [show (s.jobs.map _) = s.jobs.map id from ?_, List.map_id]
    apply List.map_congr_left
    intro r hr
    by_cases hid : r.id = job.id
    · have hr2 : r = job := hrow r hr hid
      subst hr2
      simp [claimGuard, hexec, hcanc, hproc, Function.comp]
      cases r
      simp_all
    · have hg : claimGuard job r = false := by
        simp [claimGuard, hid]
      simp [Function.comp, hg, hid]
  have hres : processJobWithLock s job now none =
      { state := s, status := .errored, dispatched := true } := by
    simp only [processJobWithLock, hclaim, hdemo]
    simp [hterm, hgate, hmsg, hsend, hrelease]
  refine ⟨by rw [hres], by rw [hres], ?_⟩
  intro n
  induction n with
  | zero => rfl
  | succ k ih =>
    show iterateFailingAttempts job now k (processJobWithLock s job now none).state = s
    rw [hres]
    exact ih

/-- C3 witness: the amended failure behaviour evaluated on the concrete
one-due-job store with a throwing transport. -/
theorem C3_witness :
    (processJobWithLock stateOneDue jobLate 100 none).status = .errored ∧
    (processJobWithLock stateOneDue jobLate 100 none).state = stateOneDue ∧
    ∀ n : Nat, iterateFailingAttempts jobLate 100 n stateOneDue = stateOneDue :=
  C3_failure_spec stateOneDue jobLate 100 demoFix (by decide) (by decide)
    (by decide) (by decide) (by decide) (by decide) (by decide) (by decide)
    (by decide) (by decide) (by decide) (by decide)

/-! ## C4 / C5 — scheduler fold machinery -/

/-- Helper: filtering a mapped list equals filtering the original when the
map fixes every accepted row and preserves acceptance. -/
theorem filter_map_key (l : List JobRow) (f : JobRow → JobRow) (p : JobRow → Bool)
    (hid : ∀ r, p r = true → f r = r)
    (hk : ∀ r, p (f r) = p r) :
    (l.map f).filter p = l.filter p := by
  induction l with
  | nil => rfl
  | cons a l ih =>
    rw [List.map_cons, List.filter_cons, List.filter_cons, hk a]
    cases hpa : p a with
    | false => exact ih
    | true =>
      rw [hid a hpa]
      exact congrArg (List.cons a) ih

/-- Helper: the in-place branch of `jobsUpsert` preserves the key fields of
every row. -/
theorem jobKeyMatches_upd (d' : Nat) (mt' : MessageType) (t : Int) (d : Nat)
    (mt : MessageType) (r : JobRow) :
    jobKeyMatches d mt
      (if jobKeyMatches d' mt' r then
        { r with scheduled_for := t, executed := false, cancelled := false }
      else r) = jobKeyMatches d mt r := by
  by_cases h : jobKeyMatches d' mt' r = true
  · rw [if_pos h]
    simp [jobKeyMatches]
  · rw [if_neg h]

/-- Helper: an upsert under a different conflict key leaves a key's row set
unchanged. -/
theorem rowsForKey_upsert_other (jobs : List JobRow) (d' : Nat) (mt' : MessageType)
    (t : Int) (d : Nat) (mt : MessageType) (h : ¬(d = d' ∧ mt = mt')) :
    rowsForKey (jobsUpsert jobs d' mt' t) d mt = rowsForKey jobs d mt := by
  have hid : ∀ r : JobRow, jobKeyMatches d mt r = true →
      (if jobKeyMatches d' mt' r then
        { r with scheduled_for := t, executed := false, cancelled := false }
      else r) = r := by
    intro r hr
    have hne : jobKeyMatches d' mt' r = false := by
      by_contra hc
      rw [Bool.not_eq_false] at hc
      simp [jobKeyMatches] at hr hc
      exact h ⟨by rw [hr.1] at hc; exact hc.1.symm ▸ rfl,
               by rw [hr.2] at hc; exact hc.2.symm ▸ rfl⟩
    simp [hne]
  unfold jobsUpsert
  split_ifs with hp
  · exact filter_map_key jobs _ _ hid (jobKeyMatches_upd d' mt' t d mt)
  · unfold rowsForKey
    rw [List.filter_append]
    have hnew : jobKeyMatches d mt
        { id := freshJobId jobs, demo_id := d', message_type := mt',
          scheduled_for := t, executed := false, executed_at := none,
          cancelled := false, processing := false,
          processing_started_at := none } = false := by
      by_contra hc
      rw [Bool.not_eq_false] at hc
      simp [jobKeyMatches] at hc
      exact h ⟨hc.1.symm, hc.2.symm⟩
    simp [hnew]

/-- Helper: after an upsert, some row carries the key with the new target
time. -/
theorem upsert_self_exists (jobs : List JobRow) (d : Nat) (mt : MessageType)
    (t : Int) :
    ∃ r ∈ jobsUpsert jobs d mt t,
      jobKeyMatches d mt r = true ∧ r.scheduled_for = t := by
  unfold jobsUpsert
  split_ifs with hp
  · obtain ⟨r0, hr0, hm⟩ := List.any_eq_true.mp hp
    refine ⟨{ r0 with scheduled_for := t, executed := false, cancelled := false },
      List.mem_map.mpr ⟨r0, hr0, by simp [hm]⟩, ?_, rfl⟩
    simp only [jobKeyMatches] at hm ⊢
    simpa using hm
  · exact ⟨_, List.mem_append_right _ (List.mem_singleton.mpr rfl),
      by simp [jobKeyMatches], rfl⟩

/-- Helper: an upsert never removes a key already present. -/
theorem jobKeyPresent_upsert_mono (jobs : List JobRow) (d' : Nat)
    (mt' : MessageType) (t : Int) (d : Nat) (mt : MessageType)
    (h : jobKeyPresent jobs d mt = true) :
    jobKeyPresent (jobsUpsert jobs d' mt' t) d mt = true := by
  obtain ⟨r0, hr0, hm⟩ := List.any_eq_true.mp h
  unfold jobsUpsert
  split_ifs with hp
  · exact List.any_eq_true.mpr ⟨_, List.mem_map.mpr ⟨r0, hr0, rfl⟩,
      by rw [jobKeyMatches_upd]; exact hm⟩
  · exact List.any_eq_true.mpr ⟨r0, List.mem_append_left _ hr0, hm⟩

/-- Helper: an upsert on a present key is an in-place replacement — the table
length is unchanged. -/
theorem length_upsert_of_present (jobs : List JobRow) (d : Nat)
    (mt : MessageType) (t : Int) (hp : jobKeyPresent jobs d mt = true) :
    (jobsUpsert jobs d mt t).length = jobs.length := by
  unfold jobsUpsert
  rw [if_pos hp, List.length_map]

/-- Helper: every row of an upsert result is an original row or carries the
new target time. -/
theorem upsert_mem_cases (jobs : List JobRow) (d : Nat) (mt : MessageType)
    (t : Int) (r : JobRow) (hr : r ∈ jobsUpsert jobs d mt t) :
    r ∈ jobs ∨ r.scheduled_for = t := by
  unfold jobsUpsert at hr
  split_ifs at hr with hp
  · obtain ⟨r0, hr0, hf⟩ := List.mem_map.mp hr
    by_cases hm : jobKeyMatches d mt r0 = true
    · right
      rw [← hf]
      simp [hm]
    · left
      rw [← hf]
      simpa [hm] using hr0
  · rcases List.mem_append.mp hr with h1 | h2
    · exact Or.inl h1
    · right
      rw [List.mem_singleton.mp h2]

/-- Helper: an upsert preserves the no-duplicate-keys invariant. -/
theorem jobsUnique_upsert (jobs : List JobRow) (d : Nat) (mt : MessageType)
    (t : Int) (h : jobsUnique jobs) : jobsUnique (jobsUpsert jobs d mt t) := by
  unfold jobsUnique at h ⊢
  unfold jobsUpsert
  split_ifs with hp
  · refine List.Pairwise.map _ ?_ h
    intro a b hab hcontra
    apply hab
    by_cases ha : jobKeyMatches d mt a = true <;>
      by_cases hb : jobKeyMatches d mt b = true <;>
      simpa [ha, hb] using hcontra
  · rw [List.pairwise_append]
    refine ⟨h, List.pairwise_singleton _ _, ?_⟩
    intro a ha b hb hcontra
    rw [List.mem_singleton.mp hb] at hcontra
    have hp2 : jobKeyPresent jobs d mt = false := by simpa using hp
    unfold jobKeyPresent at hp2
    have hnp := List.any_eq_false.mp hp2 a ha
    have hkm : jobKeyMatches d mt a = true := by
      simp [jobKeyMatches, hcontra.1, hcontra.2]
    exact absurd hkm (by simpa using hnp)

/-- Helper: a fold of steps whose message types all differ from `mt` (or act
on another booking) leaves the `(d, mt)` row set unchanged. -/
theorem scheduleSteps_frame (demo : DemoRow) (now : Int) (L : List SequenceStep)
    (jobs : List JobRow) (d : Nat) (mt : MessageType)
    (h : ∀ st ∈ L, ¬(d = demo.id ∧ mt = st.messageType)) :
    rowsForKey (scheduleSteps demo now L jobs) d mt = rowsForKey jobs d mt := by
  induction L generalizing jobs with
  | nil => rfl
  | cons a L ih =>
    have hstep : scheduleSteps demo now (a :: L) jobs
        = scheduleSteps demo now L (scheduleStep demo now jobs a) := rfl
    rw [hstep, ih (scheduleStep demo now jobs a)
      (fun st hst => h st (List.mem_cons_of_mem a hst))]
    simp only [scheduleStep]
    split_ifs with hd
    · rfl
    · exact rowsForKey_upsert_other jobs demo.id a.messageType _ d mt
        (h a (List.mem_cons_self _ _))

/-- Helper: the per-step behaviour of `scheduleSequence` over any step list
with pairwise-distinct message types — dropped steps leave their key's rows
untouched, kept steps leave a row with the computed time. -/
theorem scheduleSteps_key_spec (demo : DemoRow) (now : Int) (L : List SequenceStep)
    (jobs : List JobRow)
    (hnd : (L.map (fun st => st.messageType)).Nodup) :
    ∀ st ∈ L,
      (stepScheduledFor demo now st < now →
        rowsForKey (scheduleSteps demo now L jobs) demo.id st.messageType =
          rowsForKey jobs demo.id st.messageType) ∧
      (now ≤ stepScheduledFor demo now st →
        ∃ r ∈ scheduleSteps demo now L jobs,
          jobKeyMatches demo.id st.messageType r = true ∧
          r.scheduled_for = stepScheduledFor demo now st) := by
  induction L generalizing jobs with
  | nil =>
    intro st hst
    cases hst
  | cons a L ih =>
    intro st hst
    rw [List.map_cons, List.nodup_cons] at hnd
    have hstep : scheduleSteps demo now (a :: L) jobs
        = scheduleSteps demo now L (scheduleStep demo now jobs a) := rfl
    rcases List.mem_cons.mp hst with heq | hmem
    · subst heq
      have hfr : ∀ st' ∈ L, ¬(demo.id = demo.id ∧ st.messageType = st'.messageType) := by
        intro st' hst' hcontra
        exact hnd.1 (List.mem_map.mpr ⟨st', hst', hcontra.2.symm⟩)
      constructor
      · intro hdrop
        rw [hstep, scheduleSteps_frame demo now L _ demo.id st.messageType hfr]
        simp only [scheduleStep]
        rw [if_pos hdrop]
      · intro hkeep
        have hrows := scheduleSteps_frame demo now L
          (scheduleStep demo now jobs st) demo.id st.messageType hfr
        obtain ⟨r, hrmem, hrmatch, hrt⟩ := upsert_self_exists jobs demo.id
          st.messageType (stepScheduledFor demo now st)
        have hms : scheduleStep demo now jobs st
            = jobsUpsert jobs demo.id st.messageType (stepScheduledFor demo now st) := by
          simp only [scheduleStep]
          rw [if_neg (not_lt.mpr hkeep)]
        have hr2 : r ∈ rowsForKey (scheduleStep demo now jobs st) demo.id st.messageType := by
          rw [hms]
          exact List.mem_filter.mpr ⟨hrmem, hrmatch⟩
        have hr3 : r ∈ rowsForKey (scheduleSteps demo now L
            (scheduleStep demo now jobs st)) demo.id st.messageType := by
          rw [hrows]
          exact hr2
        obtain ⟨hr4, hr5⟩ := List.mem_filter.mp hr3
        exact ⟨r, by rw [hstep]; exact hr4, hr5, hrt⟩
    · have hspec := ih (scheduleStep demo now jobs a) hnd.2 st hmem
      have hamt : st.messageType ≠ a.messageType := by
        intro hc
        exact hnd.1 (List.mem_map.mpr ⟨st, hmem, hc⟩)
      constructor
      · intro hdrop
        rw [hstep, hspec.1 hdrop]
        simp only [scheduleStep]
        split_ifs with h2
        · rfl
        · exact rowsForKey_upsert_other jobs demo.id a.messageType _ demo.id
            st.messageType (fun hc => hamt hc.2)
      · intro hkeep
        rw [hstep]
        exact hspec.2 hkeep

/-- Helper: every row after scheduling is an original row or has a send time
at or after now. -/
theorem scheduleSteps_rows_origin (demo : DemoRow) (now : Int)
    (L : List SequenceStep) (jobs : List JobRow) :
    ∀ r ∈ scheduleSteps demo now L jobs, r ∈ jobs ∨ now ≤ r.scheduled_for := by
  induction L generalizing jobs with
  | nil =>
    intro r hr
    exact Or.inl hr
  | cons a L ih =>
    intro r hr
    have hstep : scheduleSteps demo now (a :: L) jobs
        = scheduleSteps demo now L (scheduleStep demo now jobs a) := rfl
    rw [hstep] at hr
    rcases ih (scheduleStep demo now jobs a) r hr with h1 | h2
    · simp only [scheduleStep] at h1
      split_ifs at h1 with hd
      · exact Or.inl h1
      · rcases upsert_mem_cases jobs demo.id a.messageType _ r h1 with hmem | ht
        · exact Or.inl hmem
        · exact Or.inr (ht ▸ not_lt.mp hd)
    · exact Or.inr h2

/-- Helper: scheduling preserves the no-duplicate-keys invariant. -/
theorem jobsUnique_scheduleSteps (demo : DemoRow) (now : Int)
    (L : List SequenceStep) (jobs : List JobRow) (h : jobsUnique jobs) :
    jobsUnique (scheduleSteps demo now L jobs) := by
  induction L generalizing jobs with
  | nil => exact h
  | cons a L ih =>
    have hstep : scheduleSteps demo now (a :: L) jobs
        = scheduleSteps demo now L (scheduleStep demo now jobs a) := rfl
    rw [hstep]
    apply ih
    simp only [scheduleStep]
    split_ifs with hd
    · exact h
    · exact jobsUnique_upsert jobs demo.id a.messageType _ h

/-- Helper: when every kept step's key is already present, scheduling only
replaces rows in place — the table length is unchanged. -/
theorem scheduleSteps_length (demo : DemoRow) (now : Int) (L : List SequenceStep)
    (jobs : List JobRow)
    (hpres : ∀ st ∈ L, now ≤ stepScheduledFor demo now st →
      jobKeyPresent jobs demo.id st.messageType = true) :
    (scheduleSteps demo now L jobs).length = jobs.length := by
  induction L generalizing jobs with
  | nil => rfl
  | cons a L ih =>
    have hstep : scheduleSteps demo now (a :: L) jobs
        = scheduleSteps demo now L (scheduleStep demo now jobs a) := rfl
    rw [hstep, ih (scheduleStep demo now jobs a) ?_]
    · simp only [scheduleStep]
      split_ifs with hd
      · rfl
      · exact length_upsert_of_present jobs demo.id a.messageType _
          (hpres a (List.mem_cons_self _ _) (not_lt.mp hd))
    · intro st hst hkeep
      simp only [scheduleStep]
      split_ifs with hd
      · exact hpres st (List.mem_cons_of_mem a hst) hkeep
      · exact jobKeyPresent_upsert_mono jobs demo.id a.messageType _ demo.id
          st.messageType (hpres st (List.mem_cons_of_mem a hst) hkeep)

/-- C4: for every booking, every step of its sequence whose computed send
time is strictly before now is dropped — the `(booking, kind)` row set is
exactly what it was before scheduling — while every step whose computed time
is at or after now ends up scheduled with exactly that time; moreover every
row the scheduler creates or rewrites has a send time at or after now
(dropped steps are never back-filled with a past time). -/
theorem C4_timeline_drop_policy (demo : DemoRow) (now : Int) (jobs0 : List JobRow) :
    (∀ st ∈ SEQUENCES demo.demo_type,
      (stepScheduledFor demo now st < now →
        rowsForKey (scheduleSequence demo now jobs0) demo.id st.messageType =
          rowsForKey jobs0 demo.id st.messageType) ∧
      (now ≤ stepScheduledFor demo now st →
        ∃ r ∈ scheduleSequence demo now jobs0,
          jobKeyMatches demo.id st.messageType r = true ∧
          r.scheduled_for = stepScheduledFor demo now st)) ∧
    (∀ r ∈ scheduleSequence demo now jobs0, r ∈ jobs0 ∨ now ≤ r.scheduled_for) := by
  have hnd : ((SEQUENCES demo.demo_type).map (fun st => st.messageType)).Nodup := by
    cases h : demo.demo_type <;> decide
  exact ⟨scheduleSteps_key_spec demo now _ jobs0 hnd,
    scheduleSteps_rows_origin demo now _ jobs0⟩

/-- C4 witness: scheduling a FUTURE booking (scheduled instant 1 000 000 ms)
at now = 0 drops the VALUE_BOMB step (computed 48 h before the meeting, far
in the past) and schedules the immediate CONFIRM_INITIAL step at now. -/
theorem C4_witness :
    rowsForKey (scheduleSequence demoFix 0 []) demoFix.id .VALUE_BOMB
        = rowsForKey [] demoFix.id .VALUE_BOMB ∧
    ∃ r ∈ scheduleSequence demoFix 0 [],
      jobKeyMatches demoFix.id .CONFIRM_INITIAL r = true ∧
      r.scheduled_for = stepScheduledFor demoFix 0 ⟨.CONFIRM_INITIAL, 0, false⟩ :=
  ⟨((C4_timeline_drop_policy demoFix 0 []).1
      ⟨.VALUE_BOMB, -(48 * 60 * 60 * 1000), false⟩ (by decide)).1 (by decide),
   ((C4_timeline_drop_policy demoFix 0 []).1
      ⟨.CONFIRM_INITIAL, 0, false⟩ (by decide)).2 (by decide)⟩

/-- C5: scheduling preserves the at-most-one-row-per-(booking, kind)
invariant, and scheduling the same booking's timeline twice adds no rows the
second time — the second pass upserts every kind in place. -/
theorem C5_job_uniqueness (demo : DemoRow) (now : Int) (jobs0 : List JobRow)
    (h : jobsUnique jobs0) :
    jobsUnique (scheduleSequence demo now jobs0) ∧
    jobsUnique (scheduleSequence demo now (scheduleSequence demo now jobs0)) ∧
    (scheduleSequence demo now (scheduleSequence demo now jobs0)).length =
      (scheduleSequence demo now jobs0).length := by
  have hnd : ((SEQUENCES demo.demo_type).map (fun st => st.messageType)).Nodup := by
    cases hh : demo.demo_type <;> decide
  have h1 : jobsUnique (scheduleSequence demo now jobs0) :=
    jobsUnique_scheduleSteps demo now _ jobs0 h
  refine ⟨h1, jobsUnique_scheduleSteps demo now _ _ h1, ?_⟩
  apply scheduleSteps_length
  intro st hst hkeep
  obtain ⟨r, hr, hm, _⟩ :=
    (scheduleSteps_key_spec demo now _ jobs0 hnd st hst).2 hkeep
  unfold jobKeyPresent
  exact List.any_eq_true.mpr ⟨r, hr, hm⟩

/-- C5 witness: the uniqueness and in-place-upsert property evaluated on an
initially empty jobs table for the concrete FUTURE booking. -/
theorem C5_witness :
    jobsUnique (scheduleSequence demoFix 0 []) ∧
    jobsUnique (scheduleSequence demoFix 0 (scheduleSequence demoFix 0 [])) ∧
    (scheduleSequence demoFix 0 (scheduleSequence demoFix 0 [])).length =
      (scheduleSequence demoFix 0 []).length :=
  C5_job_uniqueness demoFix 0 [] List.Pairwise.nil

/-! ## C7 — reply recording -/

/-- C7 counterexample: an inbound reply matching no open booking is recorded
with a null booking reference but with its *classified* intent (YES for body
"yes", UNKNOWN for body "zzz") and `processed := false` — not with a fixed
intent label "unmatched", which does not exist in the code. -/
theorem C7_counterexample :
    (processReply ⟨[], [], [], []⟩ "x@y.z" "yes" 0).state.replies =
      [⟨1, none, "x@y.z", "yes", .YES, false⟩] ∧
    (processReply ⟨[], [], [], []⟩ "x@y.z" "zzz" 0).state.replies =
      [⟨1, none, "x@y.z", "zzz", .UNKNOWN, false⟩] ∧
    Intent.YES ≠ Intent.UNKNOWN := by
  decide

/-- C7 (amended): `processReply` records the Reply audit row first — the
insert is unconditionally the first effect in the trace, before any
intent-driven mutation — and when no open booking matches the sender address
the reply is recorded with a null booking reference, its classified intent
and `processed := false`, and no side effects occur (demos and jobs are
untouched, action `NO_DEMO_FOUND`). -/
theorem C7_processReply_spec (s : DBState) (fromEmail body : String) (now : Int) :
    ((processReply s fromEmail body now).trace.head? =
      some (.insertReply ((demosFindByEmail s.demos fromEmail).map (fun d => d.id))
        (parseIntent body) (demosFindByEmail s.demos fromEmail).isSome)) ∧
    ((processReply s fromEmail body now).state.replies =
      s.replies ++ [⟨freshReplyId s.replies,
        (demosFindByEmail s.demos fromEmail).map (fun d => d.id), fromEmail, body,
        parseIntent body, (demosFindByEmail s.demos fromEmail).isSome⟩]) ∧
    (demosFindByEmail s.demos fromEmail = none →
      (processReply s fromEmail body now).state.demos = s.demos ∧
      (processReply s fromEmail body now).state.jobs = s.jobs ∧
      (processReply s fromEmail body now).action = "NO_DEMO_FOUND") := by
  cases hd : demosFindByEmail s.demos fromEmail with
  | none => simp [processReply, hd]
  | some d =>
    refine ⟨?_, ?_, ?_⟩
    · simp [processReply, hd]
    · cases hi : parseIntent body <;> simp [processReply, hd, executeIntent, hi]
    · intro hc
      cases hc

/-- C7 witness: the record-first and no-side-effects behaviour on an
unmatched reply against an empty store. -/
theorem C7_witness :
    (processReply ⟨[], [], [], []⟩ "x@y.z" "hello" 0).state.demos = [] ∧
    (processReply ⟨[], [], [], []⟩ "x@y.z" "hello" 0).state.jobs = [] ∧
    (processReply ⟨[], [], [], []⟩ "x@y.z" "hello" 0).action = "NO_DEMO_FOUND" :=
  (C7_processReply_spec ⟨[], [], [], []⟩ "x@y.z" "hello" 0).2.2 (by decide)
